import Mathlib

/-!
Shallow embedding of the pinoyseoul-monitor alert engine.

Source files embedded here:
- `src/utils/state_manager.py` — persistent state store primitives over the
  `down_services` mapping (entity name ↦ `{failure_count: n}` record);
- `src/monitors/backup_check.py` — backup-age check with the two-strikes policy;
- `src/monitors/docker_health.py` — container health check with maintenance
  suppression, auto-remediation and resolved alerts;
- `src/utils/google_chat.py` — webhook delivery with bounded retry;
- `src/main.py` — configuration loading with `${ENV_VAR}` substitution.

Machine state between checks is the `down_services` dictionary: Python keeps it
as an insertion-ordered dict from entity name to a record `{'failure_count': n}`.
We model it as an association list `St := List (String × Nat)` with unique keys
(the store API never creates a duplicate key); dict insertion appends, in-place
update preserves position, deletion removes the key.
-/

/-- Alert severity, as passed to `send_alert` in `src/utils/google_chat.py`. -/
inductive Severity where
  | critical
  | warning
  | info
deriving DecidableEq, Repr

/-- A notification intent: one `send_alert` call, recorded by severity and card
title (`src/utils/google_chat.py`, `send_alert`). -/
structure Intent where
  severity : Severity
  title : String
deriving DecidableEq, Repr

/-- The in-memory `down_services` mapping: entity name ↦ `failure_count`. -/
abbrev St : Type := List (String × Nat)

/-- `state_manager.is_service_down`: membership of the name in `down_services`. -/
def isServiceDown (name : String) (st : St) : Bool :=
  st.any (fun p => p.1 = name)

/-- `state_manager.mark_service_down`: if the service is not already down,
insert a record with `failure_count = 1`; otherwise do nothing. -/
def markServiceDown (name : String) (st : St) : St :=
  if isServiceDown name st then st else st ++ [(name, 1)]

/-- `state_manager.mark_service_up`: if the service is down, delete its record;
otherwise do nothing. -/
def markServiceUp (name : String) (st : St) : St :=
  if isServiceDown name st then st.filter (fun p => ¬ (p.1 = name)) else st

/-- `state_manager.get_failure_count`: the `failure_count` of the record, or 0
when the service has no record. -/
def getFailureCount (name : String) (st : St) : Nat :=
  match st.find? (fun p => p.1 = name) with
  | some p => p.2
  | none => 0

/-- `state_manager.increment_failure_count`: mark down (count 1) when not yet
down, otherwise overwrite the count with `get_failure_count + 1`. -/
def incrementFailureCount (name : String) (st : St) : St :=
  if ¬ isServiceDown name st then
    markServiceDown name st
  else
    let c := getFailureCount name st
    st.map (fun p => if p.1 = name then (p.1, c + 1) else p)

/-- `state_manager.reset_failure_count`: overwrite the count with 0 when the
service is down; otherwise do nothing (the record is kept either way). -/
def resetFailureCount (name : String) (st : St) : St :=
  if isServiceDown name st then
    st.map (fun p => if p.1 = name then (p.1, 0) else p)
  else st

/-! ## Backup check (`src/monitors/backup_check.py`) -/

/-- `BACKUP_SERVICE_NAME` from `src/monitors/backup_check.py`. -/
def BACKUP_SERVICE_NAME : String := "Server Backup System"

/-- The keys of the backup monitor configuration dict that `check_backup_age`
reads (`max_age_hours`, `failure_threshold`), plus `alert_on_recovery`, a policy
key the spec describes: the source never reads it, so it is carried here only to
let theorems speak about it. -/
structure BackupCfg where
  maxAgeHours : Nat
  failureThreshold : Nat
  alertOnRecovery : Bool
deriving DecidableEq, Repr

/-- Result of one `check_backup_age` run: the `result['status']` string, the
`send_alert` calls made, the final state, and whether `save_state` ran. -/
structure BackupResult where
  statusFailed : Bool
  intents : List Intent
  state : St
  saved : Bool
deriving DecidableEq, Repr

/-- `check_backup_age` (`src/monitors/backup_check.py`, lines 88–145), with the
probe outcome supplied as `ageSecs`: `none` when `_get_latest_backup_info`
returned `None`, `some a` when the latest backup is `a` seconds old.  The Python
failure condition `total_seconds()/3600 > max_age_hours` is the integer
comparison `a > maxAgeHours * 3600`.  `save_state(state)` runs unconditionally
at the end. -/
def checkBackupAge (cfg : BackupCfg) (ageSecs : Option Nat) (st : St) : BackupResult :=
  let failCond :=
    match ageSecs with
    | none => true
    | some a => decide (a > cfg.maxAgeHours * 3600)
  if failCond then
    let st1 := incrementFailureCount BACKUP_SERVICE_NAME st
    let fc := getFailureCount BACKUP_SERVICE_NAME st1
    if fc ≥ cfg.failureThreshold then
      { statusFailed := true
        intents := [⟨Severity.critical, "CRITICAL: Backup System Failure"⟩]
        state := resetFailureCount BACKUP_SERVICE_NAME st1
        saved := true }
    else
      { statusFailed := true, intents := [], state := st1, saved := true }
  else
    if isServiceDown BACKUP_SERVICE_NAME st then
      { statusFailed := false
        intents := [⟨Severity.info, "ALL CLEAR: Backup System Restored"⟩]
        state := markServiceUp BACKUP_SERVICE_NAME st
        saved := true }
    else
      { statusFailed := false, intents := [], state := st, saved := true }

/-- Number of critical intents in one result. -/
def criticalCount (r : BackupResult) : Nat :=
  r.intents.countP (fun i => i.severity = Severity.critical)

/-- Feeding the persistently-failing probe result (`_get_latest_backup_info`
returns `None`) to `check_backup_age` for `n` consecutive cycles, starting from
the empty state: final state and total number of critical intents. -/
def runFailCycles (cfg : BackupCfg) : Nat → St × Nat
  | 0 => ([], 0)
  | n + 1 =>
    let prev := runFailCycles cfg n
    let r := checkBackupAge cfg none prev.1
    (r.state, prev.2 + criticalCount r)


/-! ## Docker health check (`src/monitors/docker_health.py`) -/

/-- Lifecycle status of one container as reported by the Docker client.
`otherState` covers statuses (`created`, `paused`, ...) that fall through every
branch of the loop in `check_docker_health`. -/
inductive CStatus where
  | running
  | exited
  | dead
  | restarting
  | otherState
deriving DecidableEq, Repr

/-- One container as seen by `check_docker_health`: its name, status, and
whether `container.start()` would succeed (`restartOk = false` models
`docker.errors.APIError` being raised by the restart attempt). -/
structure Container where
  name : String
  status : CStatus
  restartOk : Bool
deriving DecidableEq, Repr

/-- `summary['status']` values in `check_docker_health`. -/
inductive DStatus where
  | healthy
  | warning
  | critical
deriving DecidableEq, Repr

/-- The summary counters kept by `check_docker_health` (`running`, `stopped`,
`issues`, `status`); `total_containers` is the input list length. -/
structure DockerSummary where
  running : Nat
  stopped : Nat
  issues : List String
  dstatus : DStatus
deriving DecidableEq, Repr

/-- Body of the `for container in containers` loop of `check_docker_health`
(`src/monitors/docker_health.py`, lines 103–187).  `friendly` is
`name_map.get(name, name)`; it affects only alert text.  Returns the updated
state, the updated summary, and the `send_alert` calls made for this
container.  The maintenance flag (`in_maintenance`) guards only the
`exited`/`dead` branch. -/
def dockerStep (inMaint : Bool) (friendly : String → String) (c : Container)
    (st : St) (sm : DockerSummary) : St × DockerSummary × List Intent :=
  match c.status with
  | CStatus.running =>
    let sm := { sm with running := sm.running + 1 }
    if isServiceDown c.name st then
      (markServiceUp c.name st, sm,
        [⟨Severity.info, "ALL CLEAR: " ++ friendly c.name ++ " Service Restored"⟩])
    else
      (st, sm, [])
  | CStatus.exited | CStatus.dead =>
    let sm := { sm with stopped := sm.stopped + 1 }
    if inMaint then
      (st, sm, [])
    else
      let st1 := markServiceDown c.name st
      if c.restartOk then
        (markServiceUp c.name st1,
          { sm with dstatus := if sm.dstatus = DStatus.critical then DStatus.critical else DStatus.warning },
          [⟨Severity.info, "Auto-Recovery: " ++ friendly c.name ++ " Restarted"⟩])
      else
        (st1,
          { sm with issues := sm.issues ++ [c.name], dstatus := DStatus.critical },
          [⟨Severity.critical, "CRITICAL: " ++ friendly c.name ++ " Service Down"⟩])
  | CStatus.restarting =>
    let sm := { sm with stopped := sm.stopped + 1 }
    (markServiceDown c.name st,
      { sm with issues := sm.issues ++ [c.name], dstatus := DStatus.critical },
      [⟨Severity.critical, "CRITICAL: " ++ friendly c.name ++ " Service Unstable"⟩])
  | CStatus.otherState =>
    (st, sm, [])

/-- The container loop of `check_docker_health`, folding `dockerStep` over the
container list and concatenating alerts in emission order. -/
def dockerLoop (inMaint : Bool) (friendly : String → String) :
    List Container → St → DockerSummary → St × DockerSummary × List Intent
  | [], st, sm => (st, sm, [])
  | c :: cs, st, sm =>
    let r := dockerStep inMaint friendly c st sm
    let rest := dockerLoop inMaint friendly cs r.1 r.2.1
    (rest.1, rest.2.1, r.2.2 ++ rest.2.2)

/-- `check_docker_health` after a successful Docker connection, with the probe
outcome (container list) and the maintenance flag supplied as inputs.  Returns
the final state, the summary, and all notification intents. -/
def checkDockerHealth (inMaint : Bool) (friendly : String → String)
    (containers : List Container) (st : St) : St × DockerSummary × List Intent :=
  dockerLoop inMaint friendly containers st ⟨0, 0, [], DStatus.healthy⟩

/-! ## SSL certificate check (`src/monitors/ssl_check.py`) -/

/-- Probe outcome for one domain in `check_ssl_certs`: a certificate was
obtained (with its `days_until_expiry`), the connection failed
(`socket.gaierror` / `socket.timeout` / `ConnectionRefusedError`), the
certificate failed verification (`ssl.SSLCertVerificationError`), or some
other exception was raised. -/
inductive SslProbe where
  | cert (daysLeft : Int)
  | connectError
  | certInvalid
  | otherError
deriving DecidableEq, Repr

/-- Body of the `for domain in domains` loop of `check_ssl_certs`
(`src/monitors/ssl_check.py`, lines 47–136): the branch ladder on
`days_left` against the critical/warning thresholds, the exception handlers,
the recovery path (`is_service_down` → info alert → `mark_service_up`), and
the trailing `if domain_down: mark_service_down`.  Returns the updated state
and the `send_alert` calls for this domain; the `status_report` record is
display data and is not modeled. -/
def sslStep (critTh warnTh : Int) (domain : String) (probe : SslProbe)
    (st : St) : St × List Intent :=
  match probe with
  | SslProbe.cert d =>
    if d < 0 then
      (markServiceDown domain st,
       [⟨Severity.critical, "URGENT: Website Security Expired"⟩])
    else if d < critTh then
      (markServiceDown domain st,
       [⟨Severity.critical, "URGENT: Renew Website Security"⟩])
    else if d < warnTh then
      (st, [⟨Severity.warning, "Heads-Up: Security Renewal"⟩])
    else if isServiceDown domain st then
      (markServiceUp domain st,
       [⟨Severity.info, "ALL CLEAR: " ++ domain ++ " Restored"⟩])
    else
      (st, [])
  | SslProbe.connectError =>
    (markServiceDown domain st,
     [⟨Severity.warning, "Service Unreachable: " ++ domain⟩])
  | SslProbe.certInvalid =>
    (markServiceDown domain st,
     [⟨Severity.critical, "CRITICAL: Invalid Website Security"⟩])
  | SslProbe.otherError =>
    (markServiceDown domain st, [])

/-- `check_ssl_certs` over its domain list (probe outcomes supplied per
domain), threading the state through `sslStep` and concatenating alerts in
emission order; `save_state` runs once after the loop. -/
def checkSslCerts (critTh warnTh : Int) :
    List (String × SslProbe) → St → St × List Intent
  | [], st => (st, [])
  | (domain, probe) :: rest, st =>
    let r := sslStep critTh warnTh domain probe st
    let rest' := checkSslCerts critTh warnTh rest r.1
    (rest'.1, r.2 ++ rest'.2)

/-! ## State file loading (`src/utils/state_manager.py`, `load_state`) -/

/-- JSON values, as returned by `json.load`. -/
inductive Json where
  | null
  | bool (b : Bool)
  | num (n : Int)
  | str (s : String)
  | arr (xs : List Json)
  | obj (kvs : List (String × Json))

/-- Python exceptions that `load_state` can let escape. -/
inductive PyErr where
  | attributeError
  | typeError
deriving DecidableEq, Repr

/-- Contents of the state file as seen by `load_state`: missing, unreadable
(`IOError` on open/read), not valid JSON (`json.JSONDecodeError`), or parsed. -/
inductive FileContent where
  | absent
  | ioError
  | badJson
  | parsed (j : Json)

/-- Dictionary lookup on a parsed JSON object (first binding wins; `json.load`
produces unique keys). -/
def lookupJ (k : String) (kvs : List (String × Json)) : Option Json :=
  (kvs.find? (fun p => p.1 = k)).map (fun p => p.2)

/-- In-place assignment `state['down_services'] = v` on a parsed JSON object:
replaces the existing binding in place, or appends. -/
def setJ (k : String) (v : Json) (kvs : List (String × Json)) : List (String × Json) :=
  if kvs.any (fun p => p.1 = k) then
    kvs.map (fun p => if p.1 = k then (p.1, v) else p)
  else
    kvs ++ [(k, v)]

/-- Using a legacy list element as a dict key during migration.  Strings are
used as-is; lists and dicts are unhashable, so Python raises `TypeError`; the
other scalars are hashable and are represented here by canonical renderings
(no claim exercises a legacy list with non-string elements). -/
def keyOfJson : Json → Except PyErr String
  | Json.str s => Except.ok s
  | Json.arr _ => Except.error PyErr.typeError
  | Json.obj _ => Except.error PyErr.typeError
  | Json.null => Except.ok "None"
  | Json.bool b => Except.ok (if b then "True" else "False")
  | Json.num n => Except.ok (toString n)

/-- A Python `for` loop building a list, stopping at the first raised
exception (used for the migration loop and the substitution loops). -/
def mapExcept {α β ε : Type} (f : α → Except ε β) : List α → Except ε (List β)
  | [] => Except.ok []
  | a :: as =>
    match f a with
    | Except.error e => Except.error e
    | Except.ok b => (mapExcept f as).map (fun bs => b :: bs)

/-- The migration loop of `load_state`: each legacy name becomes a record
`{'failure_count': 1}`. -/
def migrateDownServices (items : List Json) : Except PyErr (List (String × Json)) :=
  mapExcept (fun it => (keyOfJson it).map
    (fun k => (k, Json.obj [("failure_count", Json.num 1)]))) items

/-- The default state `{'down_services': {}}`. -/
def defaultStateJ : Json := Json.obj [("down_services", Json.obj [])]

/-- `load_state` (`src/utils/state_manager.py`, lines 16–48) as a function of
the file contents.  Returns the loaded state together with a flag recording
whether `save_state` was invoked during the load (it is, exactly on the
migration path).  The `try` block catches only `json.JSONDecodeError` and
`IOError`; `state.get(...)` on a parsed non-dict document raises
`AttributeError`, and an unhashable legacy list element raises `TypeError`,
both escaping the function — modeled as `Except.error`. -/
def loadState : FileContent → Except PyErr (Json × Bool)
  | FileContent.absent => Except.ok (defaultStateJ, false)
  | FileContent.ioError => Except.ok (defaultStateJ, false)
  | FileContent.badJson => Except.ok (defaultStateJ, false)
  | FileContent.parsed j =>
    match j with
    | Json.obj kvs =>
      match lookupJ "down_services" kvs with
      | some (Json.arr items) =>
        (migrateDownServices items).map
          (fun m => (Json.obj (setJ "down_services" (Json.obj m) kvs), true))
      | some (Json.obj _) => Except.ok (Json.obj kvs, false)
      | some _ => Except.ok (defaultStateJ, false)
      | none => Except.ok (defaultStateJ, false)
    | _ => Except.error PyErr.attributeError


/-! ## Remote backup listing (`src/monitors/backup_check.py`, `_get_latest_backup_info`) -/

/-- Outcome of `datetime.fromisoformat` on one `ModTime` string: a parsed
timestamp (totally ordered, modeled as an integer), or a `ValueError`. -/
inductive MT where
  | valid (t : Int)
  | malformed
deriving DecidableEq, Repr

/-- One file descriptor from the `rclone lsjson` array: its `Path` field
(absent or present) and its `ModTime` field (absent, or a string whose parse
outcome is given). -/
structure RFile where
  path : Option String
  modTime : Option MT
deriving DecidableEq, Repr

/-- `python:str.endswith`, computed on the character lists (the built-in
`String.endsWith` does not reduce inside the kernel). -/
def strEndsWith (s suffix : String) : Bool :=
  suffix.data.isSuffixOf s.data

/-- `python:str.startswith`, computed on the character lists. -/
def strStartsWith (s pre : String) : Bool :=
  pre.data.isPrefixOf s.data

/-- The filter `if not path or not path.endswith('.tar.gz'): continue`:
`None` and the empty string are falsy and are skipped, as is any path without
the archive suffix. -/
def matchesSuffix (f : RFile) : Bool :=
  match f.path with
  | none => false
  | some p => ¬ (p = "") && strEndsWith p ".tar.gz"

/-- The `for file_info in files` loop of `_get_latest_backup_info`
(lines 46–61), threading the `latest_backup`/`latest_time` accumulator.
A matching entry with no `ModTime` raises `AttributeError`
(`None.replace(...)`), which the inner `except (ValueError, KeyError)` does
not catch — modeled as `Except.error`.  A malformed `ModTime` raises
`ValueError`, is caught, and the entry is skipped.  The accumulator is
replaced only on a strictly newer time. -/
def scanFiles : List RFile → Option (String × Int) → Except PyErr (Option (String × Int))
  | [], acc => Except.ok acc
  | f :: rest, acc =>
    if matchesSuffix f then
      match f.modTime with
      | none => Except.error PyErr.attributeError
      | some MT.malformed => scanFiles rest acc
      | some (MT.valid t) =>
        let acc' :=
          match acc with
          | none => some (f.path.getD "", t)
          | some (p0, t0) => if t > t0 then some (f.path.getD "", t) else some (p0, t0)
        scanFiles rest acc'
    else
      scanFiles rest acc

/-- `_get_latest_backup_info` (lines 27–85) as a function of the parsed
`rclone lsjson` output.  An empty listing returns `None`; an exception escaping
the loop is caught by the outer `except Exception` and also yields `None`;
otherwise the result is the accumulated latest matching entry (or `None` when
no entry matched). -/
def getLatestBackupInfo (files : List RFile) : Option (String × Int) :=
  if files.isEmpty then none
  else
    match scanFiles files none with
    | Except.error _ => none
    | Except.ok r => r


/-! ## Configuration loading (`src/main.py`, `load_config`) -/

/-- A configuration value inside a section: a string, a nested mapping, or any
other YAML scalar (number, boolean, list, ...), which the substitution loop's
`isinstance(value, str)` test rejects. -/
inductive CfgVal where
  | str (s : String)
  | nested (m : List (String × CfgVal))
  | otherVal

/-- A parsed configuration document: top-level sections, each a mapping from
keys to values (`config.items()` / `settings.items()`). -/
abbrev Cfg : Type := List (String × List (String × CfgVal))

/-- `value.startswith('${') and value.endswith('}')`. -/
def isSubstForm (s : String) : Bool :=
  strStartsWith s "$\x7b" && strEndsWith s "\x7d"

/-- `value[2:-1]`: the environment variable name inside `${...}`. -/
def varNameOf (s : String) : String :=
  String.mk ((s.data.drop 2).dropLast)

/-- The body of the substitution loop for one value (`src/main.py`,
lines 70–76): a string of the exact form `${VAR}` is replaced by
`os.getenv(VAR)`; a missing or empty variable (`if not env_value`) is fatal
(`sys.exit(1)`, modeled as `Except.error`).  Every other value — including a
nested mapping, whatever strings it contains — is left untouched. -/
def substVal (env : String → Option String) : CfgVal → Except Unit CfgVal
  | CfgVal.str v =>
    if isSubstForm v then
      match env (varNameOf v) with
      | none => Except.error ()
      | some s => if s = "" then Except.error () else Except.ok (CfgVal.str s)
    else Except.ok (CfgVal.str v)
  | x => Except.ok x

/-- The inner loop `for key, value in settings.items()`. -/
def substSettings (env : String → Option String) (settings : List (String × CfgVal)) :
    Except Unit (List (String × CfgVal)) :=
  mapExcept (fun p => (substVal env p.2).map (fun v => (p.1, v))) settings

/-- The outer loop `for section, settings in config.items()`. -/
def substCfg (env : String → Option String) (cfg : Cfg) : Except Unit Cfg :=
  mapExcept (fun p => (substSettings env p.2).map (fun s => (p.1, s))) cfg

/-- The final check `if not config.get('google_chat', {}).get('webhook_url')`:
the `google_chat` section must hold a non-empty string under `webhook_url`. -/
def webhookOk (cfg : Cfg) : Bool :=
  match (cfg.find? (fun p => p.1 = "google_chat")).map (fun p => p.2) with
  | none => false
  | some settings =>
    match (settings.find? (fun p => p.1 = "webhook_url")).map (fun p => p.2) with
    | some (CfgVal.str s) => ¬ (s = "")
    | _ => false

/-- `load_config` (`src/main.py`, lines 40–84) after the YAML parse, as a
function of the parsed document and the process environment.  `Except.error ()`
is `sys.exit(1)`. -/
def loadConfig (cfg : Cfg) (env : String → Option String) : Except Unit Cfg :=
  match substCfg env cfg with
  | Except.error e => Except.error e
  | Except.ok c => if webhookOk c then Except.ok c else Except.error ()

/-! ## Webhook delivery (`src/utils/google_chat.py`, `_send_card`) -/

/-- Result of one `_send_card` call: the returned boolean, the number of
`requests.post` attempts actually made, and the seconds spent in
`time.sleep` between attempts. -/
structure SendResult where
  ok : Bool
  attempts : Nat
  sleepSecs : Nat
deriving DecidableEq, Repr

/-- The retry loop `for attempt in range(max_retries)` of `_send_card`
(lines 50–65).  `outcome i` tells whether the `i`-th `requests.post` succeeds;
a failing attempt raises `requests.exceptions.RequestException`, which is
caught: the loop sleeps 5 seconds and retries if attempts remain, else returns
`False`.  No exception escapes. -/
def sendLoop (outcome : Nat → Bool) (maxRetries : Nat) : Nat → Nat → SendResult
  | attempt, sleeps =>
    if h : attempt < maxRetries then
      if outcome attempt then
        ⟨true, attempt + 1, sleeps⟩
      else if attempt < maxRetries - 1 then
        sendLoop outcome maxRetries (attempt + 1) (sleeps + 5)
      else
        ⟨false, attempt + 1, sleeps⟩
    else
      ⟨false, attempt, sleeps⟩
termination_by attempt _ => maxRetries - attempt

/-- `_get_webhook_url`: the `GOOGLE_CHAT_WEBHOOK_URL` environment value, unless
missing, empty (falsy), or the placeholder. -/
def getWebhookUrl (envUrl : Option String) : Option String :=
  match envUrl with
  | none => none
  | some u =>
    if u = "" ∨ u = "YOUR_GOOGLE_CHAT_WEBHOOK_URL_HERE" then none else some u

/-- `_send_card` (`src/utils/google_chat.py`, lines 36–65): no configured
webhook returns `False` with no attempt; otherwise the retry loop runs with
`max_retries = 2`. -/
def sendCard (envUrl : Option String) (outcome : Nat → Bool) : SendResult :=
  match getWebhookUrl envUrl with
  | none => ⟨false, 0, 0⟩
  | some _ => sendLoop outcome 2 0 0


/-! ## Helper lemmas about the state-store primitives -/

theorem any_filter_not_key (n : String) (l : List (String × Nat)) :
    (l.filter (fun p => ¬ (p.1 = n))).any (fun p => p.1 = n) = false := by
  induction l with
  | nil => rfl
  | cons p rest ih =>
    by_cases hp : p.1 = n
    · simp [List.filter, hp, ih]
    · simp [List.filter, hp, ih]

theorem any_key_map_set (n m : String) (v : Nat) (l : List (String × Nat)) :
    ((l.map (fun p => if p.1 = m then (p.1, v) else p)).any (fun p => p.1 = n))
      = l.any (fun p => p.1 = n) := by
  induction l with
  | nil => rfl
  | cons p rest ih =>
    by_cases hp : p.1 = m
    · simp [hp, ih]
    · simp [hp, ih]

theorem find_key_map_set (n : String) (v : Nat) (l : List (String × Nat))
    (h : l.any (fun p => p.1 = n) = true) :
    (l.map (fun p => if p.1 = n then (p.1, v) else p)).find? (fun p => p.1 = n)
      = some (n, v) := by
  induction l with
  | nil => simp at h
  | cons p rest ih =>
    by_cases hp : p.1 = n
    · simp [hp]
    · rw [List.map_cons, if_neg hp, List.find?_cons_of_neg _ (by simpa using hp)]
      apply ih
      rcases List.any_eq_true.mp h with ⟨x, hx, hpx⟩
      cases List.mem_cons.mp hx with
      | inl he =>
        rw [he] at hpx
        exact absurd (by simpa using hpx) hp
      | inr ht => exact List.any_eq_true.mpr ⟨x, ht, hpx⟩

theorem isServiceDown_markUp_self (n : String) (st : St) :
    isServiceDown n (markServiceUp n st) = false := by
  unfold markServiceUp
  by_cases h : isServiceDown n st
  · rw [if_pos h]
    exact any_filter_not_key n st
  · rw [if_neg h]
    simpa using h

theorem isServiceDown_reset (n : String) (st : St) :
    isServiceDown n (resetFailureCount n st) = isServiceDown n st := by
  unfold resetFailureCount
  by_cases h : isServiceDown n st
  · rw [if_pos h]
    exact any_key_map_set n n 0 st
  · rw [if_neg h]

theorem getFailureCount_map_set (n : String) (v : Nat) (st : St)
    (h : isServiceDown n st = true) :
    getFailureCount n (st.map (fun p => if p.1 = n then (p.1, v) else p)) = v := by
  unfold getFailureCount
  rw [find_key_map_set n v st h]

theorem getFailureCount_reset (n : String) (st : St) (h : isServiceDown n st = true) :
    getFailureCount n (resetFailureCount n st) = 0 := by
  unfold resetFailureCount
  rw [if_pos h]
  exact getFailureCount_map_set n 0 st h

theorem getFailureCount_increment (n : String) (st : St) (h : isServiceDown n st = true) :
    getFailureCount n (incrementFailureCount n st) = getFailureCount n st + 1 := by
  unfold incrementFailureCount
  rw [if_neg (by simp [h])]
  exact getFailureCount_map_set n (getFailureCount n st + 1) st h

theorem incrementFailureCount_absent (n : String) (st : St) (h : isServiceDown n st = false) :
    incrementFailureCount n st = st ++ [(n, 1)] := by
  unfold incrementFailureCount markServiceDown
  simp [h]

/-! ## Claim theorems -/

/-- C5: the primitive state-store accessors are no-ops when called redundantly:
`mark_service_down` on an already-down entity returns the state unchanged (its
failure count is untouched), and `mark_service_up` on an entity with no down
record returns the state unchanged. -/
theorem redundant_accessor_idempotence (st : St) (n : String) :
    (isServiceDown n st = true → markServiceDown n st = st)
    ∧ (isServiceDown n st = false → markServiceUp n st = st) := by
  constructor
  · intro h
    unfold markServiceDown
    simp [h]
  · intro h
    unfold markServiceUp
    simp [h]

/-- Witness for C5 at the concrete state `[("a", 3)]`. -/
theorem redundant_accessor_idempotence_witness :
    (isServiceDown "a" [("a", 3)] = true ∧ markServiceDown "a" [("a", 3)] = [("a", 3)])
    ∧ (isServiceDown "b" [("a", 3)] = false ∧ markServiceUp "b" [("a", 3)] = [("a", 3)]) :=
  ⟨⟨by decide, (redundant_accessor_idempotence [("a", 3)] "a").1 (by decide)⟩,
   ⟨by decide, (redundant_accessor_idempotence [("a", 3)] "b").2 (by decide)⟩⟩

/-- C10: after `reset_failure_count` on a down entity, the entity is still
recorded as down with `failure_count = 0`, a subsequent
`increment_failure_count` yields `failure_count = 1`, and `get_failure_count`
returns for the just-reset entity exactly what it returns for an entity with
no record at all (0) — the two are indistinguishable through it. -/
theorem reset_keeps_down_record (st : St) (n : String) (h : isServiceDown n st = true) :
    isServiceDown n (resetFailureCount n st) = true
    ∧ getFailureCount n (resetFailureCount n st) = 0
    ∧ getFailureCount n (incrementFailureCount n (resetFailureCount n st)) = 1
    ∧ getFailureCount n (resetFailureCount n st) = getFailureCount n ([] : St) := by
  have hdown : isServiceDown n (resetFailureCount n st) = true := by
    rw [isServiceDown_reset]; exact h
  have hzero := getFailureCount_reset n st h
  refine ⟨hdown, hzero, ?_, ?_⟩
  · rw [getFailureCount_increment n _ hdown, hzero]
  · rw [hzero]; rfl

/-- Witness for C10 at the concrete state `[("svc", 2)]`. -/
theorem reset_keeps_down_record_witness :
    isServiceDown "svc" [("svc", 2)] = true
    ∧ (isServiceDown "svc" (resetFailureCount "svc" [("svc", 2)]) = true
       ∧ getFailureCount "svc" (resetFailureCount "svc" [("svc", 2)]) = 0
       ∧ getFailureCount "svc" (incrementFailureCount "svc" (resetFailureCount "svc" [("svc", 2)])) = 1
       ∧ getFailureCount "svc" (resetFailureCount "svc" [("svc", 2)]) = getFailureCount "svc" ([] : St)) :=
  ⟨by decide, reset_keeps_down_record [("svc", 2)] "svc" (by decide)⟩

/-- C4: loading the legacy document `{"down_services": ["svcA", "svcB"]}` yields
`{"down_services": {"svcA": {"failure_count": 1}, "svcB": {"failure_count": 1}}}`
and persists the migrated document during that same load (`save_state` is
invoked, flag `true`); loading the migrated document again performs no save, so
the migration runs at most once. -/
theorem legacy_state_migration :
    loadState (FileContent.parsed (Json.obj
      [("down_services", Json.arr [Json.str "svcA", Json.str "svcB"])])) =
      Except.ok (Json.obj [("down_services", Json.obj
        [("svcA", Json.obj [("failure_count", Json.num 1)]),
         ("svcB", Json.obj [("failure_count", Json.num 1)])])], true)
    ∧ loadState (FileContent.parsed (Json.obj
      [("down_services", Json.obj
        [("svcA", Json.obj [("failure_count", Json.num 1)]),
         ("svcB", Json.obj [("failure_count", Json.num 1)])])])) =
      Except.ok (Json.obj [("down_services", Json.obj
        [("svcA", Json.obj [("failure_count", Json.num 1)]),
         ("svcB", Json.obj [("failure_count", Json.num 1)])])], false) :=
  ⟨rfl, rfl⟩

/-- C6: `load_state` returns the default empty state when the file is absent,
unreadable, or unparseable, and when `down_services` is present but not
dictionary-shaped — but on a file whose JSON parses to a non-dictionary
document (for example the valid JSON text `[]`), `state.get('down_services')`
raises `AttributeError`, which the `except (json.JSONDecodeError, IOError)`
clause does not catch: `load_state` raises instead of returning the default,
contradicting the claim that it never fails. -/
theorem load_state_error_handling_bug :
    loadState FileContent.absent = Except.ok (defaultStateJ, false)
    ∧ loadState FileContent.ioError = Except.ok (defaultStateJ, false)
    ∧ loadState FileContent.badJson = Except.ok (defaultStateJ, false)
    ∧ loadState (FileContent.parsed (Json.obj [("down_services", Json.str "x")])) =
        Except.ok (defaultStateJ, false)
    ∧ loadState (FileContent.parsed (Json.arr [])) = Except.error PyErr.attributeError
    ∧ loadState (FileContent.parsed (Json.str "hello")) = Except.error PyErr.attributeError :=
  ⟨rfl, rfl, rfl, rfl, rfl, rfl⟩

/-- C3 counterexample: the source has no `alert_on_recovery` policy.  With a
configuration carrying `alert_on_recovery = false` and the backup entity down,
a healthy observation still emits one (info) recovery intent — the claim
promises zero intents in this situation. -/
theorem recovery_policy_counterexample :
    (⟨25, 2, false⟩ : BackupCfg).alertOnRecovery = false
    ∧ isServiceDown BACKUP_SERVICE_NAME [(BACKUP_SERVICE_NAME, 1)] = true
    ∧ (checkBackupAge ⟨25, 2, false⟩ (some 0) [(BACKUP_SERVICE_NAME, 1)]).intents
        = [⟨Severity.info, "ALL CLEAR: Backup System Restored"⟩]
    ∧ ¬ ((checkBackupAge ⟨25, 2, false⟩ (some 0)
          [(BACKUP_SERVICE_NAME, 1)]).intents.length = 0) := by
  decide

/-- C3 amended: for an entity currently down, a single healthy observation
removes its record and always emits exactly one info-level recovery intent —
the code has no `alert_on_recovery` policy, so the intent is emitted
unconditionally and the outcome does not depend on such a flag.  This holds
in each of the three recovery paths: the backup check (healthy backup age),
the docker check (a previously-down container observed `running`, whatever
the maintenance flag), and the SSL check (a previously-down domain whose
certificate clears every threshold). -/
theorem recovery_always_alerts_amended :
    (∀ (cfg : BackupCfg) (ageSecs : Nat) (st : St),
      isServiceDown BACKUP_SERVICE_NAME st = true →
      ageSecs ≤ cfg.maxAgeHours * 3600 →
      checkBackupAge cfg (some ageSecs) st =
          ⟨false, [⟨Severity.info, "ALL CLEAR: Backup System Restored"⟩],
            markServiceUp BACKUP_SERVICE_NAME st, true⟩
        ∧ isServiceDown BACKUP_SERVICE_NAME
            (checkBackupAge cfg (some ageSecs) st).state = false
        ∧ (∀ b, checkBackupAge ⟨cfg.maxAgeHours, cfg.failureThreshold, b⟩ (some ageSecs) st
             = checkBackupAge cfg (some ageSecs) st))
    ∧ (∀ (b : Bool) (friendly : String → String) (c : Container) (st : St)
          (sm : DockerSummary),
        c.status = CStatus.running →
        isServiceDown c.name st = true →
        (dockerStep b friendly c st sm).1 = markServiceUp c.name st
          ∧ (dockerStep b friendly c st sm).2.2
              = [⟨Severity.info, "ALL CLEAR: " ++ friendly c.name ++ " Service Restored"⟩]
          ∧ isServiceDown c.name (dockerStep b friendly c st sm).1 = false)
    ∧ (∀ (critTh warnTh d : Int) (domain : String) (st : St),
        isServiceDown domain st = true →
        ¬ d < 0 → ¬ d < critTh → ¬ d < warnTh →
        sslStep critTh warnTh domain (SslProbe.cert d) st
            = (markServiceUp domain st,
               [⟨Severity.info, "ALL CLEAR: " ++ domain ++ " Restored"⟩])
          ∧ isServiceDown domain
              (sslStep critTh warnTh domain (SslProbe.cert d) st).1 = false) := by
  refine ⟨?_, ?_, ?_⟩
  · intro cfg ageSecs st hdown hfresh
    have hcond : ¬ (ageSecs > cfg.maxAgeHours * 3600) := by omega
    have hmain : checkBackupAge cfg (some ageSecs) st =
        ⟨false, [⟨Severity.info, "ALL CLEAR: Backup System Restored"⟩],
          markServiceUp BACKUP_SERVICE_NAME st, true⟩ := by
      unfold checkBackupAge
      simp [hcond, hdown]
    refine ⟨hmain, ?_, fun b => rfl⟩
    rw [hmain]
    exact isServiceDown_markUp_self BACKUP_SERVICE_NAME st
  · intro b friendly c st sm hrun hdown
    have hmain : dockerStep b friendly c st sm =
        (markServiceUp c.name st,
         { sm with running := sm.running + 1 },
         [⟨Severity.info, "ALL CLEAR: " ++ friendly c.name ++ " Service Restored"⟩]) := by
      unfold dockerStep
      rw [hrun]
      simp [hdown]
    rw [hmain]
    exact ⟨rfl, rfl, isServiceDown_markUp_self c.name st⟩
  · intro critTh warnTh d domain st hdown h0 h1 h2
    have hmain : sslStep critTh warnTh domain (SslProbe.cert d) st =
        (markServiceUp domain st,
         [⟨Severity.info, "ALL CLEAR: " ++ domain ++ " Restored"⟩]) := by
      unfold sslStep
      dsimp only
      rw [if_neg h0, if_neg h1, if_neg h2, if_pos hdown]
    rw [hmain]
    exact ⟨rfl, isServiceDown_markUp_self domain st⟩

/-- Witness for C3's amended theorem, exercising all three recovery paths at
concrete down states: the backup entity, a running container, and a domain
with a long-lived certificate. -/
theorem recovery_always_alerts_amended_witness :
    (checkBackupAge ⟨25, 2, true⟩ (some 0) [(BACKUP_SERVICE_NAME, 1)] =
        ⟨false, [⟨Severity.info, "ALL CLEAR: Backup System Restored"⟩],
          markServiceUp BACKUP_SERVICE_NAME [(BACKUP_SERVICE_NAME, 1)], true⟩)
    ∧ ((dockerStep true (fun n => n) ⟨"c", CStatus.running, true⟩ [("c", 1)]
          ⟨0, 0, [], DStatus.healthy⟩).2.2
        = [⟨Severity.info, "ALL CLEAR: c Service Restored"⟩])
    ∧ (sslStep 7 30 "example.com" (SslProbe.cert 60) [("example.com", 1)]
        = (markServiceUp "example.com" [("example.com", 1)],
           [⟨Severity.info, "ALL CLEAR: example.com Restored"⟩])) :=
  ⟨(recovery_always_alerts_amended.1 ⟨25, 2, true⟩ 0 [(BACKUP_SERVICE_NAME, 1)]
      (by decide) (by decide)).1,
   (recovery_always_alerts_amended.2.1 true (fun n => n)
      ⟨"c", CStatus.running, true⟩ [("c", 1)] ⟨0, 0, [], DStatus.healthy⟩
      rfl (by decide)).2.1,
   (recovery_always_alerts_amended.2.2 7 30 60 "example.com" [("example.com", 1)]
      (by decide) (by decide) (by decide) (by decide)).1⟩

/-- C7: `_send_card` makes at most 2 `requests.post` attempts; when the webhook
is configured and both attempts fail it returns `False` (rather than raising —
`requests.exceptions.RequestException` is caught) after exactly one 5-second
inter-attempt delay; and `check_backup_age` reaches its unconditional
`save_state` call whatever the delivery outcome: the persisted state never
depends on notification success. -/
theorem notifier_retry_bounded (envUrl : Option String) (outcome : Nat → Bool)
    (cfg : BackupCfg) (ageSecs : Option Nat) (st : St) :
    (sendCard envUrl outcome).attempts ≤ 2
    ∧ (¬ (getWebhookUrl envUrl = none) → outcome 0 = false → outcome 1 = false →
        sendCard envUrl outcome = ⟨false, 2, 5⟩)
    ∧ (outcome 0 = true → (sendCard envUrl outcome).sleepSecs = 0)
    ∧ (checkBackupAge cfg ageSecs st).saved = true := by
  have hloop1 : ∀ s, sendLoop outcome 2 1 s =
      if outcome 1 then ⟨true, 2, s⟩ else ⟨false, 2, s⟩ := by
    intro s
    rw [sendLoop]
    norm_num
  have hloop0 : sendLoop outcome 2 0 0 =
      if outcome 0 then ⟨true, 1, 0⟩
      else if outcome 1 then ⟨true, 2, 5⟩ else ⟨false, 2, 5⟩ := by
    rw [sendLoop]
    norm_num [hloop1]
  have hsaved : (checkBackupAge cfg ageSecs st).saved = true := by
    unfold checkBackupAge
    dsimp only
    repeat' split
    all_goals rfl
  refine ⟨?_, ?_, ?_, hsaved⟩
  · unfold sendCard
    cases hw : getWebhookUrl envUrl with
    | none => simp
    | some u =>
      rw [hloop0]
      by_cases h0 : outcome 0
      · simp [h0]
      · by_cases h1 : outcome 1 <;> simp [h0, h1]
  · intro hw h0 h1
    unfold sendCard
    cases hwv : getWebhookUrl envUrl with
    | none => exact absurd hwv hw
    | some u => rw [hloop0, h0, h1]; rfl
  · intro h0
    unfold sendCard
    cases hwv : getWebhookUrl envUrl with
    | none => rfl
    | some u => rw [hloop0, h0]; rfl

theorem dockerStep_not_stopped (b b' : Bool) (friendly : String → String)
    (c : Container) (st : St) (sm sm' : DockerSummary)
    (h : ¬ (c.status = CStatus.exited ∨ c.status = CStatus.dead)) :
    (dockerStep b friendly c st sm).1 = (dockerStep b' friendly c st sm').1
    ∧ (dockerStep b friendly c st sm).2.2 = (dockerStep b' friendly c st sm').2.2 := by
  cases hs : c.status with
  | running =>
    unfold dockerStep
    rw [hs]
    by_cases hd : isServiceDown c.name st <;> simp [hd]
  | exited => exact absurd (Or.inl hs) h
  | dead => exact absurd (Or.inr hs) h
  | restarting =>
    unfold dockerStep
    rw [hs]
    exact ⟨rfl, rfl⟩
  | otherState =>
    unfold dockerStep
    rw [hs]
    exact ⟨rfl, rfl⟩

theorem dockerStep_stopped_maintenance (friendly : String → String)
    (c : Container) (st : St) (sm : DockerSummary)
    (h : c.status = CStatus.exited ∨ c.status = CStatus.dead) :
    (dockerStep true friendly c st sm).1 = st
    ∧ (dockerStep true friendly c st sm).2.2 = [] := by
  cases h with
  | inl hs =>
    unfold dockerStep
    rw [hs]
    exact ⟨rfl, rfl⟩
  | inr hs =>
    unfold dockerStep
    rw [hs]
    exact ⟨rfl, rfl⟩

theorem dockerLoop_cons (b : Bool) (friendly : String → String) (c : Container)
    (cs : List Container) (st : St) (sm : DockerSummary) :
    dockerLoop b friendly (c :: cs) st sm =
      ((dockerLoop b friendly cs (dockerStep b friendly c st sm).1
          (dockerStep b friendly c st sm).2.1).1,
       (dockerLoop b friendly cs (dockerStep b friendly c st sm).1
          (dockerStep b friendly c st sm).2.1).2.1,
       (dockerStep b friendly c st sm).2.2
         ++ (dockerLoop b friendly cs (dockerStep b friendly c st sm).1
              (dockerStep b friendly c st sm).2.1).2.2) := rfl

theorem dockerLoop_maintenance (friendly : String → String) (cs : List Container) :
    ∀ (st : St) (sm sm' : DockerSummary),
      (dockerLoop true friendly cs st sm).1
        = (dockerLoop false friendly
            (cs.filter (fun c => ¬ (c.status = CStatus.exited ∨ c.status = CStatus.dead)))
            st sm').1
      ∧ (dockerLoop true friendly cs st sm).2.2
        = (dockerLoop false friendly
            (cs.filter (fun c => ¬ (c.status = CStatus.exited ∨ c.status = CStatus.dead)))
            st sm').2.2 := by
  induction cs with
  | nil => exact fun st sm sm' => ⟨rfl, rfl⟩
  | cons c rest ih =>
    intro st sm sm'
    by_cases hc : c.status = CStatus.exited ∨ c.status = CStatus.dead
    · have hfil : (c :: rest).filter
          (fun c => ¬ (c.status = CStatus.exited ∨ c.status = CStatus.dead))
          = rest.filter (fun c => ¬ (c.status = CStatus.exited ∨ c.status = CStatus.dead)) := by
        simp [List.filter, hc]
      obtain ⟨hst, hint⟩ := dockerStep_stopped_maintenance friendly c st sm hc
      rw [hfil, dockerLoop_cons]
      dsimp only
      rw [hst, hint]
      obtain ⟨ih1, ih2⟩ := ih st (dockerStep true friendly c st sm).2.1 sm'
      exact ⟨ih1, by simpa using ih2⟩
    · have hfil : (c :: rest).filter
          (fun c => ¬ (c.status = CStatus.exited ∨ c.status = CStatus.dead))
          = c :: rest.filter (fun c => ¬ (c.status = CStatus.exited ∨ c.status = CStatus.dead)) := by
        simp [List.filter, hc]
      obtain ⟨hst, hint⟩ := dockerStep_not_stopped true false friendly c st sm sm' hc
      rw [hfil, dockerLoop_cons, dockerLoop_cons]
      dsimp only
      obtain ⟨ih1, ih2⟩ := ih (dockerStep true friendly c st sm).1
        (dockerStep true friendly c st sm).2.1
        (dockerStep false friendly c st sm').2.1
      constructor
      · rw [ih1, hst]
      · rw [hint, ih2, hst]

theorem mapExcept_error_of_mem {α β ε : Type} (f : α → Except ε β) (xs : List α)
    (x : α) (hx : x ∈ xs) (e : ε) (hf : f x = Except.error e) :
    ∃ e', mapExcept f xs = Except.error e' := by
  induction xs with
  | nil => cases hx
  | cons a as ih =>
    cases List.mem_cons.mp hx with
    | inl heq =>
      refine ⟨e, ?_⟩
      rw [heq] at hf
      simp [mapExcept, hf]
    | inr hmem =>
      obtain ⟨e', he'⟩ := ih hmem
      cases hfa : f a with
      | error e2 => exact ⟨e2, by simp [mapExcept, hfa]⟩
      | ok b => exact ⟨e', by simp [mapExcept, hfa, he', Except.map]⟩

theorem mapExcept_ok_mem {α β ε : Type} (f : α → Except ε β) :
    ∀ (xs : List α) (ys : List β), mapExcept f xs = Except.ok ys →
      ∀ x ∈ xs, ∃ y, f x = Except.ok y ∧ y ∈ ys := by
  intro xs
  induction xs with
  | nil => intro ys _ x hx; cases hx
  | cons a as ih =>
    intro ys h x hx
    cases hfa : f a with
    | error e => simp [mapExcept, hfa] at h
    | ok b =>
      cases hrest : mapExcept f as with
      | error e => simp [mapExcept, hfa, hrest, Except.map] at h
      | ok bs =>
        have hys : b :: bs = ys := by simpa [mapExcept, hfa, hrest, Except.map] using h
        cases List.mem_cons.mp hx with
        | inl heq =>
          refine ⟨b, ?_, ?_⟩
          · rw [heq]; exact hfa
          · rw [← hys]; exact List.mem_cons_self b bs
        | inr hmem =>
          obtain ⟨y, hy1, hy2⟩ := ih bs hrest x hmem
          exact ⟨y, hy1, by rw [← hys]; exact List.mem_cons_of_mem b hy2⟩

/-- C8 counterexample: a `${VAR}` string nested one level deeper than the
section/key structure is never visited by the substitution loop: with `MISSING`
unset in the environment, `load_config` succeeds and returns the document with
the `${MISSING}` reference left in place, where the claim demands a fatal exit. -/
theorem env_subst_depth_counterexample :
    loadConfig
      [("google_chat", [("webhook_url", CfgVal.str "https://w")]),
       ("monitors", [("docker", CfgVal.nested [("opt", CfgVal.str "${MISSING}")])])]
      (fun _ => none)
      = Except.ok
        [("google_chat", [("webhook_url", CfgVal.str "https://w")]),
         ("monitors", [("docker", CfgVal.nested [("opt", CfgVal.str "${MISSING}")])])]
    ∧ ¬ (loadConfig
      [("google_chat", [("webhook_url", CfgVal.str "https://w")]),
       ("monitors", [("docker", CfgVal.nested [("opt", CfgVal.str "${MISSING}")])])]
      (fun _ => none)
      = Except.error ()) := by
  refine ⟨rfl, fun h => ?_⟩
  rw [show loadConfig
      [("google_chat", [("webhook_url", CfgVal.str "https://w")]),
       ("monitors", [("docker", CfgVal.nested [("opt", CfgVal.str "${MISSING}")])])]
      (fun _ => none)
      = Except.ok
        [("google_chat", [("webhook_url", CfgVal.str "https://w")]),
         ("monitors", [("docker", CfgVal.nested [("opt", CfgVal.str "${MISSING}")])])] from rfl] at h
  exact Except.noConfusion h

/-- C8 amended: `${VAR}` substitution happens exactly at the second level of
the document (a value directly under a section): a nested mapping is passed
through untouched whatever strings it contains; an unset (or empty) variable
referenced by a second-level `${VAR}` value is fatal; and a successful load
guarantees the webhook URL check passed and every second-level `${VAR}` value
was replaced by its (non-empty) environment value. -/
theorem env_subst_second_level_amended (cfg : Cfg) (env : String → Option String) :
    (∀ m, substVal env (CfgVal.nested m) = Except.ok (CfgVal.nested m))
    ∧ (∀ sec settings k v, (sec, settings) ∈ cfg → (k, CfgVal.str v) ∈ settings →
        isSubstForm v = true →
        (env (varNameOf v) = none ∨ env (varNameOf v) = some "") →
        loadConfig cfg env = Except.error ())
    ∧ (∀ cfg', loadConfig cfg env = Except.ok cfg' →
        webhookOk cfg' = true
        ∧ ∀ sec settings, (sec, settings) ∈ cfg →
            ∃ settings', (sec, settings') ∈ cfg'
              ∧ ∀ k v, (k, CfgVal.str v) ∈ settings → isSubstForm v = true →
                  ∃ s, env (varNameOf v) = some s ∧ ¬ (s = "")
                    ∧ (k, CfgVal.str s) ∈ settings') := by
  refine ⟨fun m => rfl, ?_, ?_⟩
  · intro sec settings k v hsec hkv hform henv
    have hv : substVal env (CfgVal.str v) = Except.error () := by
      simp only [substVal]
      rw [if_pos hform]
      rcases henv with h | h
      · rw [h]
      · rw [h]
        simp
    obtain ⟨e1, he1⟩ := mapExcept_error_of_mem
      (fun p => (substVal env p.2).map (fun w => (p.1, w))) settings (k, CfgVal.str v)
      hkv () (by simp [hv, Except.map])
    have he1' : substSettings env settings = Except.error e1 := he1
    obtain ⟨e2, he2⟩ := mapExcept_error_of_mem
      (fun p => (substSettings env p.2).map (fun s => (p.1, s))) cfg (sec, settings)
      hsec e1 (by
        show Except.map (fun s => (sec, s)) (substSettings env settings) = Except.error e1
        rw [he1']
        rfl)
    unfold loadConfig substCfg
    rw [he2]
  · intro cfg' h
    unfold loadConfig at h
    cases hsub : substCfg env cfg with
    | error e => rw [hsub] at h; exact Except.noConfusion h
    | ok c0 =>
      rw [hsub] at h
      dsimp only at h
      by_cases hwh : webhookOk c0 = true
      · rw [if_pos hwh] at h
        injection h with h
        subst h
        refine ⟨hwh, ?_⟩
        intro sec settings hsec
        have hsub' : mapExcept (fun p => (substSettings env p.2).map (fun s => (p.1, s))) cfg
            = Except.ok c0 := hsub
        obtain ⟨y, hy1, hy2⟩ := mapExcept_ok_mem
          (fun p => (substSettings env p.2).map (fun s => (p.1, s))) cfg c0 hsub'
          (sec, settings) hsec
        cases hss : substSettings env settings with
        | error e =>
          rw [hss] at hy1
          exact Except.noConfusion hy1
        | ok settings' =>
          rw [hss] at hy1
          injection hy1 with hy1
          subst hy1
          refine ⟨settings', hy2, ?_⟩
          intro k v hkv hform
          have hss' : mapExcept (fun p => (substVal env p.2).map (fun vv => (p.1, vv))) settings
              = Except.ok settings' := hss
          obtain ⟨w, hw1, hw2⟩ := mapExcept_ok_mem
            (fun p => (substVal env p.2).map (fun vv => (p.1, vv))) settings settings'
            hss' (k, CfgVal.str v) hkv
          cases henv : env (varNameOf v) with
          | none =>
            have hbad : substVal env (CfgVal.str v) = Except.error () := by
              simp only [substVal]
              rw [if_pos hform, henv]
            rw [hbad] at hw1
            exact Except.noConfusion hw1
          | some s =>
            by_cases hs : s = ""
            · have hbad : substVal env (CfgVal.str v) = Except.error () := by
                simp only [substVal]
                rw [if_pos hform, henv]
                dsimp only
                rw [if_pos hs]
              rw [hbad] at hw1
              exact Except.noConfusion hw1
            · have hgood : substVal env (CfgVal.str v) = Except.ok (CfgVal.str s) := by
                simp only [substVal]
                rw [if_pos hform, henv]
                dsimp only
                rw [if_neg hs]
              rw [hgood] at hw1
              injection hw1 with hw1
              subst hw1
              exact ⟨s, rfl, hs, hw2⟩
      · rw [if_neg hwh] at h
        exact Except.noConfusion h

theorem checkBackupAge_none_empty (cfg : BackupCfg) :
    checkBackupAge cfg none [] =
      if cfg.failureThreshold ≤ 1
      then ⟨true, [⟨Severity.critical, "CRITICAL: Backup System Failure"⟩],
            [(BACKUP_SERVICE_NAME, 0)], true⟩
      else ⟨true, [], [(BACKUP_SERVICE_NAME, 1)], true⟩ := rfl

theorem checkBackupAge_none_single (cfg : BackupCfg) (c : Nat) :
    checkBackupAge cfg none [(BACKUP_SERVICE_NAME, c)] =
      if cfg.failureThreshold ≤ c + 1
      then ⟨true, [⟨Severity.critical, "CRITICAL: Backup System Failure"⟩],
            [(BACKUP_SERVICE_NAME, 0)], true⟩
      else ⟨true, [], [(BACKUP_SERVICE_NAME, c + 1)], true⟩ := rfl

theorem runFail_inv (cfg : BackupCfg) (hT : 1 ≤ cfg.failureThreshold) :
    ∀ n : Nat, runFailCycles cfg n =
      ((if n = 0 then ([] : St) else [(BACKUP_SERVICE_NAME, n % cfg.failureThreshold)]),
       n / cfg.failureThreshold) := by
  intro n
  induction n with
  | zero => simp [runFailCycles]
  | succ n ih =>
    have hstep : runFailCycles cfg (n + 1) =
        ((checkBackupAge cfg none (runFailCycles cfg n).1).state,
         (runFailCycles cfg n).2
           + criticalCount (checkBackupAge cfg none (runFailCycles cfg n).1)) := rfl
    rw [hstep, ih]
    dsimp only
    by_cases h0 : n = 0
    · subst h0
      rw [if_pos rfl, checkBackupAge_none_empty]
      by_cases hT1 : cfg.failureThreshold ≤ 1
      · have hone : cfg.failureThreshold = 1 := le_antisymm hT1 hT
        rw [if_pos hT1, hone]
        norm_num [criticalCount]
      · have h2 : 1 < cfg.failureThreshold := lt_of_not_ge hT1
        rw [if_neg hT1, if_neg (Nat.one_ne_zero), Nat.mod_eq_of_lt h2,
          Nat.div_eq_of_lt h2]
        simp [criticalCount, Nat.zero_div]
    · rw [if_neg h0, checkBackupAge_none_single]
      have hTpos : 0 < cfg.failureThreshold := hT
      have hmlt : n % cfg.failureThreshold < cfg.failureThreshold := Nat.mod_lt n hTpos
      have e0 : cfg.failureThreshold * (n / cfg.failureThreshold) + n % cfg.failureThreshold
          = n := Nat.div_add_mod n cfg.failureThreshold
      by_cases hcrit : cfg.failureThreshold ≤ n % cfg.failureThreshold + 1
      · have hm : n % cfg.failureThreshold + 1 = cfg.failureThreshold := by omega
        have e2 : n + 1 = cfg.failureThreshold * (n / cfg.failureThreshold + 1) := by
          calc n + 1
              = (cfg.failureThreshold * (n / cfg.failureThreshold)
                  + n % cfg.failureThreshold) + 1 := by rw [e0]
            _ = cfg.failureThreshold * (n / cfg.failureThreshold)
                  + (n % cfg.failureThreshold + 1) := by rw [Nat.add_assoc]
            _ = cfg.failureThreshold * (n / cfg.failureThreshold)
                  + cfg.failureThreshold * 1 := by rw [hm, Nat.mul_one]
            _ = cfg.failureThreshold * (n / cfg.failureThreshold + 1) := by
                rw [Nat.mul_add]
        have hdvd : cfg.failureThreshold ∣ n + 1 := ⟨n / cfg.failureThreshold + 1, e2⟩
        have hdiv : (n + 1) / cfg.failureThreshold = n / cfg.failureThreshold + 1 :=
          Nat.succ_div_of_dvd hdvd
        have hmod0 : (n + 1) % cfg.failureThreshold = 0 := by
          rw [e2]
          exact Nat.mul_mod_right _ _
        rw [if_pos hcrit, if_neg (Nat.succ_ne_zero n), hmod0, hdiv]
        rfl
      · have hlt : n % cfg.failureThreshold + 1 < cfg.failureThreshold := by omega
        have e2 : n + 1 = (n / cfg.failureThreshold) * cfg.failureThreshold
            + (n % cfg.failureThreshold + 1) := by
          calc n + 1
              = (cfg.failureThreshold * (n / cfg.failureThreshold)
                  + n % cfg.failureThreshold) + 1 := by rw [e0]
            _ = cfg.failureThreshold * (n / cfg.failureThreshold)
                  + (n % cfg.failureThreshold + 1) := by rw [Nat.add_assoc]
            _ = (n / cfg.failureThreshold) * cfg.failureThreshold
                  + (n % cfg.failureThreshold + 1) := by rw [Nat.mul_comm]
        have hmod : (n + 1) % cfg.failureThreshold = n % cfg.failureThreshold + 1 := by
          rw [e2]
          exact Nat.mul_add_mod_of_lt hlt
        have hndvd : ¬ cfg.failureThreshold ∣ (n + 1) := by
          intro hd
          obtain ⟨c2, hc⟩ := hd
          rw [hc, Nat.mul_mod_right] at hmod
          omega
        have hdiv : (n + 1) / cfg.failureThreshold = n / cfg.failureThreshold :=
          Nat.succ_div_of_not_dvd hndvd
        rw [if_neg hcrit, if_neg (Nat.succ_ne_zero n), hmod, hdiv]
        rfl

theorem matches_path (f : RFile) (h : matchesSuffix f = true) :
    f.path = some (f.path.getD "") := by
  cases hp : f.path with
  | none => simp [matchesSuffix, hp] at h
  | some p => simp [hp]

theorem scanFiles_spec (files : List RFile) :
    (∀ f ∈ files, matchesSuffix f = true → ∃ t, f.modTime = some (MT.valid t)) →
    ∀ acc : Option (String × Int),
      ∃ r, scanFiles files acc = Except.ok r
        ∧ (∀ p t, r = some (p, t) →
            ((acc = some (p, t)
               ∨ ∃ f, f ∈ files ∧ matchesSuffix f = true ∧ f.path = some p
                   ∧ f.modTime = some (MT.valid t))
             ∧ (∀ p0 t0, acc = some (p0, t0) → t0 ≤ t)
             ∧ (∀ f, f ∈ files → matchesSuffix f = true →
                  ∀ t', f.modTime = some (MT.valid t') → t' ≤ t)))
        ∧ (r = none → acc = none ∧ ∀ f ∈ files, matchesSuffix f = false)
        ∧ (acc = none → (∀ f ∈ files, matchesSuffix f = false) → r = none) := by
  induction files with
  | nil =>
    intro _ acc
    refine ⟨acc, rfl, ?_, ?_, fun hacc _ => hacc⟩
    · intro p t hacc
      refine ⟨Or.inl hacc, ?_, ?_⟩
      · intro p0 t0 h0
        rw [hacc] at h0
        injection h0 with h0
        injection h0 with h1 h2
        omega
      · intro g hg
        cases hg
    · intro hr
      refine ⟨hr, ?_⟩
      intro g hg
      cases hg
  | cons f rest ih =>
    intro h acc
    have hrest : ∀ g ∈ rest, matchesSuffix g = true → ∃ t, g.modTime = some (MT.valid t) :=
      fun g hg hgm => h g (List.mem_cons_of_mem f hg) hgm
    by_cases hm : matchesSuffix f = true
    · obtain ⟨tf, htf⟩ := h f (List.mem_cons_self f rest) hm
      have hpath : f.path = some (f.path.getD "") := matches_path f hm
      cases acc with
      | none =>
        obtain ⟨r, hr, hsome, hnone, _⟩ := ih hrest (some (f.path.getD "", tf))
        refine ⟨r, ?_, ?_, ?_, ?_⟩
        · have heq : scanFiles (f :: rest) none
              = scanFiles rest (some (f.path.getD "", tf)) := by
            simp [scanFiles, hm, htf]
          rw [heq]
          exact hr
        · intro p t hrt
          obtain ⟨hmem, hacc', hmax⟩ := hsome p t hrt
          refine ⟨?_, ?_, ?_⟩
          · cases hmem with
            | inl heq =>
              injection heq with heq
              injection heq with hp ht
              subst hp
              subst ht
              exact Or.inr ⟨f, List.mem_cons_self f rest, hm, hpath, htf⟩
            | inr hex =>
              obtain ⟨g, hg, h1, h2, h3⟩ := hex
              exact Or.inr ⟨g, List.mem_cons_of_mem f hg, h1, h2, h3⟩
          · intro p0 t0 h0
            cases h0
          · intro g hg hgm t' hgt
            cases List.mem_cons.mp hg with
            | inl heq =>
              rw [heq, htf] at hgt
              injection hgt with hgt
              injection hgt with hgt
              rw [← hgt]
              exact hacc' (f.path.getD "") tf rfl
            | inr hmem2 => exact hmax g hmem2 hgm t' hgt
        · intro hrn
          obtain ⟨hacc', _⟩ := hnone hrn
          exact Option.noConfusion hacc'
        · intro _ hall
          exact absurd (hall f (List.mem_cons_self f rest)) (by simp [hm])
      | some pt =>
        obtain ⟨p0, t0⟩ := pt
        by_cases hgt : tf > t0
        · obtain ⟨r, hr, hsome, hnone, _⟩ := ih hrest (some (f.path.getD "", tf))
          refine ⟨r, ?_, ?_, ?_, ?_⟩
          · have heq : scanFiles (f :: rest) (some (p0, t0))
                = scanFiles rest (some (f.path.getD "", tf)) := by
              simp [scanFiles, hm, htf, hgt]
            rw [heq]
            exact hr
          · intro p t hrt
            obtain ⟨hmem, hacc', hmax⟩ := hsome p t hrt
            refine ⟨?_, ?_, ?_⟩
            · cases hmem with
              | inl heq =>
                injection heq with heq
                injection heq with hp ht
                subst hp
                subst ht
                exact Or.inr ⟨f, List.mem_cons_self f rest, hm, hpath, htf⟩
              | inr hex =>
                obtain ⟨g, hg, h1, h2, h3⟩ := hex
                exact Or.inr ⟨g, List.mem_cons_of_mem f hg, h1, h2, h3⟩
            · intro p1 t1 h1
              injection h1 with h1
              injection h1 with hp1 ht1
              have htf_le := hacc' (f.path.getD "") tf rfl
              omega
            · intro g hg hgm t' hgt'
              cases List.mem_cons.mp hg with
              | inl heq =>
                rw [heq, htf] at hgt'
                injection hgt' with hgt'
                injection hgt' with hgt'
                rw [← hgt']
                exact hacc' (f.path.getD "") tf rfl
              | inr hmem2 => exact hmax g hmem2 hgm t' hgt'
          · intro hrn
            obtain ⟨hacc', _⟩ := hnone hrn
            exact Option.noConfusion hacc'
          · intro habs _
            exact Option.noConfusion habs
        · obtain ⟨r, hr, hsome, hnone, _⟩ := ih hrest (some (p0, t0))
          refine ⟨r, ?_, ?_, ?_, ?_⟩
          · have heq : scanFiles (f :: rest) (some (p0, t0))
                = scanFiles rest (some (p0, t0)) := by
              simp [scanFiles, hm, htf, hgt]
            rw [heq]
            exact hr
          · intro p t hrt
            obtain ⟨hmem, hacc', hmax⟩ := hsome p t hrt
            refine ⟨?_, hacc', ?_⟩
            · cases hmem with
              | inl heq => exact Or.inl heq
              | inr hex =>
                obtain ⟨g, hg, h1, h2, h3⟩ := hex
                exact Or.inr ⟨g, List.mem_cons_of_mem f hg, h1, h2, h3⟩
            · intro g hg hgm t' hgt'
              cases List.mem_cons.mp hg with
              | inl heq =>
                rw [heq, htf] at hgt'
                injection hgt' with hgt'
                injection hgt' with hgt'
                have ht0 := hacc' p0 t0 rfl
                omega
              | inr hmem2 => exact hmax g hmem2 hgm t' hgt'
          · intro hrn
            obtain ⟨hacc', _⟩ := hnone hrn
            exact Option.noConfusion hacc'
          · intro habs _
            exact Option.noConfusion habs
    · obtain ⟨r, hr, hsome, hnone, hfwd⟩ := ih hrest acc
      refine ⟨r, ?_, ?_, ?_, ?_⟩
      · have heq : scanFiles (f :: rest) acc = scanFiles rest acc := by
          simp [scanFiles, hm]
        rw [heq]
        exact hr
      · intro p t hrt
        obtain ⟨hmem, hacc', hmax⟩ := hsome p t hrt
        refine ⟨?_, hacc', ?_⟩
        · cases hmem with
          | inl heq => exact Or.inl heq
          | inr hex =>
            obtain ⟨g, hg, h1, h2, h3⟩ := hex
            exact Or.inr ⟨g, List.mem_cons_of_mem f hg, h1, h2, h3⟩
        · intro g hg hgm t' hgt'
          cases List.mem_cons.mp hg with
          | inl heq =>
            rw [heq] at hgm
            exact absurd hgm hm
          | inr hmem2 => exact hmax g hmem2 hgm t' hgt'
      · intro hrn
        obtain ⟨hacc', hall⟩ := hnone hrn
        refine ⟨hacc', ?_⟩
        intro g hg
        cases List.mem_cons.mp hg with
        | inl heq =>
          rw [heq]
          simpa using hm
        | inr hmem2 => exact hall g hmem2
      · intro hacc hall
        exact hfwd hacc (fun g hg => hall g (List.mem_cons_of_mem f hg))

/-- C9: among the `rclone lsjson` entries, those whose `Path` does not end in
`.tar.gz` (or is missing/empty) are ignored; provided every matching entry
carries a parseable `ModTime`, the selected latest backup is a matching entry
whose time is maximal among all matching entries, the result is `None` exactly
when no entry matches, and some entry is selected whenever one matches. -/
theorem latest_backup_selection (files : List RFile)
    (h : ∀ f ∈ files, matchesSuffix f = true → ∃ t, f.modTime = some (MT.valid t)) :
    (∀ p t, getLatestBackupInfo files = some (p, t) →
        (∃ f, f ∈ files ∧ matchesSuffix f = true ∧ f.path = some p
           ∧ f.modTime = some (MT.valid t))
        ∧ (∀ f, f ∈ files → matchesSuffix f = true →
             ∀ t', f.modTime = some (MT.valid t') → t' ≤ t))
    ∧ ((∀ f ∈ files, matchesSuffix f = false) → getLatestBackupInfo files = none)
    ∧ ((∃ f, f ∈ files ∧ matchesSuffix f = true) →
        ∃ p t, getLatestBackupInfo files = some (p, t)) := by
  obtain ⟨r, hr, hsome, hnone, hfwd⟩ := scanFiles_spec files h none
  by_cases hemp : files.isEmpty
  · refine ⟨?_, ?_, ?_⟩
    · intro p t hg
      rw [getLatestBackupInfo, if_pos hemp] at hg
      exact Option.noConfusion hg
    · intro _
      rw [getLatestBackupInfo, if_pos hemp]
    · intro hex
      obtain ⟨f, hf, _⟩ := hex
      rw [List.isEmpty_iff.mp hemp] at hf
      cases hf
  · have hg : getLatestBackupInfo files = r := by
      rw [getLatestBackupInfo, if_neg hemp, hr]
    refine ⟨?_, ?_, ?_⟩
    · intro p t hg2
      rw [hg] at hg2
      obtain ⟨hmem, _, hmax⟩ := hsome p t hg2
      refine ⟨?_, hmax⟩
      cases hmem with
      | inl habs => exact Option.noConfusion habs
      | inr hex => exact hex
    · intro hall
      rw [hg]
      exact hfwd rfl hall
    · intro hex
      obtain ⟨f, hf, hfm⟩ := hex
      rw [hg]
      cases hrcase : r with
      | none =>
        obtain ⟨_, hall⟩ := hnone hrcase
        exact absurd (hall f hf) (by simp [hfm])
      | some pt => exact ⟨pt.1, pt.2, rfl⟩

/-- Witness for C9 at a concrete listing: the `.txt` entry is ignored even
though it is newest, and the newest `.tar.gz` entry is selected. -/
theorem latest_backup_selection_witness :
    getLatestBackupInfo
      [⟨some "a.tar.gz", some (MT.valid 5)⟩,
       ⟨some "n.txt", some (MT.valid 99)⟩,
       ⟨some "b.tar.gz", some (MT.valid 7)⟩] = some ("b.tar.gz", 7)
    ∧ (∃ f, f ∈ ([⟨some "a.tar.gz", some (MT.valid 5)⟩,
         ⟨some "n.txt", some (MT.valid 99)⟩,
         ⟨some "b.tar.gz", some (MT.valid 7)⟩] : List RFile)
        ∧ matchesSuffix f = true ∧ f.path = some "b.tar.gz"
        ∧ f.modTime = some (MT.valid 7)) :=
  have h := latest_backup_selection
    [⟨some "a.tar.gz", some (MT.valid 5)⟩,
     ⟨some "n.txt", some (MT.valid 99)⟩,
     ⟨some "b.tar.gz", some (MT.valid 7)⟩]
    (by
      intro f hf hfm
      simp only [List.mem_cons, List.not_mem_nil, or_false] at hf
      rcases hf with rfl | rfl | rfl
      · exact ⟨5, rfl⟩
      · exact ⟨99, rfl⟩
      · exact ⟨7, rfl⟩)
  ⟨by decide, (h.1 "b.tar.gz" 7 (by decide)).1⟩

/-- C1 counterexample: with threshold T = 2 and N = 4 consecutive failing
cycles, the check emits two critical intents (at cycles 2 and 4), not exactly
one: after alerting, `reset_failure_count` zeroes the strike counter while the
entity stays down, so the counter climbs back to the threshold and the alert
fires again during the same continuous outage. -/
theorem backup_single_alert_counterexample :
    (2 : Nat) ≤ 4
    ∧ (runFailCycles ⟨25, 2, true⟩ 4).2 = 2
    ∧ ¬ ((runFailCycles ⟨25, 2, true⟩ 4).2 = 1) := by
  decide

/-- C1 amended: over N consecutive failing cycles with threshold T ≥ 1 the
check emits exactly ⌊N/T⌋ critical intents — one at every cycle that is a
multiple of T.  The first alert does come at the cycle where the strike count
first reaches T, and exactly one alert total is emitted only while N < 2T; at
cycle 2T a second critical intent is emitted for the same continuous outage. -/
theorem backup_failure_alert_count_amended (cfg : BackupCfg) (n : Nat)
    (hT : 1 ≤ cfg.failureThreshold) :
    (runFailCycles cfg n).2 = n / cfg.failureThreshold
    ∧ (cfg.failureThreshold ≤ n → n < 2 * cfg.failureThreshold →
        (runFailCycles cfg n).2 = 1)
    ∧ (runFailCycles cfg (2 * cfg.failureThreshold)).2 = 2 := by
  have h1 : (runFailCycles cfg n).2 = n / cfg.failureThreshold := by
    rw [runFail_inv cfg hT n]
  refine ⟨h1, ?_, ?_⟩
  · intro hge hlt
    rw [h1]
    apply Nat.div_eq_of_lt_le
    · omega
    · omega
  · rw [runFail_inv cfg hT (2 * cfg.failureThreshold)]
    apply Nat.div_eq_of_lt_le <;> omega

/-- Witness for C1's amended theorem at T = 2: one critical intent over 3
cycles, two critical intents over 4. -/
theorem backup_failure_alert_count_amended_witness :
    1 ≤ (2 : Nat)
    ∧ (runFailCycles ⟨25, 2, true⟩ 3).2 = 3 / 2
    ∧ (runFailCycles ⟨25, 2, true⟩ 3).2 = 1
    ∧ (runFailCycles ⟨25, 2, true⟩ (2 * 2)).2 = 2 :=
  have h := backup_failure_alert_count_amended ⟨25, 2, true⟩ 3 (by decide)
  ⟨by decide, h.1, h.2.1 (by decide) (by decide), h.2.2⟩

/-- Witness for C8's amended theorem: an unset second-level reference exits
fatally, and a successful substituted load passes the webhook check. -/
theorem env_subst_second_level_amended_witness :
    loadConfig [("google_chat", [("webhook_url", CfgVal.str "${X}")])] (fun _ => none)
      = Except.error ()
    ∧ webhookOk [("google_chat", [("webhook_url", CfgVal.str "https://w")])] = true :=
  ⟨(env_subst_second_level_amended
      [("google_chat", [("webhook_url", CfgVal.str "${X}")])] (fun _ => none)).2.1
      "google_chat" [("webhook_url", CfgVal.str "${X}")] "webhook_url" "${X}"
      (List.mem_singleton.mpr rfl) (List.mem_singleton.mpr rfl) rfl (Or.inl rfl),
   ((env_subst_second_level_amended
      [("google_chat", [("webhook_url", CfgVal.str "${WH}")])]
      (fun v => if v = "WH" then some "https://w" else none)).2.2
      [("google_chat", [("webhook_url", CfgVal.str "https://w")])] rfl).1⟩

/-- C2 counterexample: with the maintenance flag set, a container in
`restarting` status is still marked down (a state transition) and still emits
a critical intent; maintenance suppression does not cover this branch, so a
check under suppression is not intent-free and not transition-free. -/
theorem maintenance_suppression_counterexample :
    checkDockerHealth true (fun n => n) [⟨"c", CStatus.restarting, true⟩] []
      = ([("c", 1)], ⟨0, 1, ["c"], DStatus.critical⟩,
         [⟨Severity.critical, "CRITICAL: c Service Unstable"⟩])
    ∧ ¬ (([("c", 1)] : St) = [])
    ∧ ¬ (([⟨Severity.critical, "CRITICAL: c Service Unstable"⟩] : List Intent) = []) := by
  decide

/-- C2 amended: the maintenance-window flag suppresses intents and state
transitions only for stopped (`exited`/`dead`) containers.  Running
`check_docker_health` with the flag set produces exactly the state and intents
of running it with the flag clear on the container list with the stopped
containers removed: stopped containers are fully suppressed, while recovery
intents for running containers and critical intents plus mark-down transitions
for `restarting` containers happen regardless of the flag. -/
theorem maintenance_suppression_amended (friendly : String → String)
    (cs : List Container) (st : St) :
    (checkDockerHealth true friendly cs st).1
      = (checkDockerHealth false friendly
          (cs.filter (fun c => ¬ (c.status = CStatus.exited ∨ c.status = CStatus.dead)))
          st).1
    ∧ (checkDockerHealth true friendly cs st).2.2
      = (checkDockerHealth false friendly
          (cs.filter (fun c => ¬ (c.status = CStatus.exited ∨ c.status = CStatus.dead)))
          st).2.2 :=
  dockerLoop_maintenance friendly cs st ⟨0, 0, [], DStatus.healthy⟩ ⟨0, 0, [], DStatus.healthy⟩

/-- Witness for C7 with a configured webhook and two failing attempts. -/
theorem notifier_retry_bounded_witness :
    (sendCard (some "https://w") (fun _ => false)).attempts ≤ 2
    ∧ (¬ (getWebhookUrl (some "https://w") = none)
       ∧ sendCard (some "https://w") (fun _ => false) = ⟨false, 2, 5⟩)
    ∧ (checkBackupAge ⟨25, 2, true⟩ none []).saved = true :=
  ⟨(notifier_retry_bounded (some "https://w") (fun _ => false) ⟨25, 2, true⟩ none []).1,
   ⟨by decide,
    (notifier_retry_bounded (some "https://w") (fun _ => false) ⟨25, 2, true⟩ none []).2.1
      (by decide) rfl rfl⟩,
   (notifier_retry_bounded (some "https://w") (fun _ => false) ⟨25, 2, true⟩ none []).2.2.2⟩
